import Mathlib

/-!
# StationeryAI backend — verification of the reporting and recommendation layer

Shallow embedding of the FastAPI handlers in `main.py` together with the
SQLAlchemy data model in `models.py`.  The database is modelled as two lists:
the product catalog (`products` table) and the sales ledger (`sales` table).
SQL `Float` columns are modelled as exact rationals (`ℚ`); nullable columns as
`Option`; SQL aggregate `SUM` by `sqlSumQ` / `sqlSumInt` (NULL when there is no
non-null value); Python truthiness coalescing `x if x else 0` by `pyOrZero`;
Python string containment `a in b` by `strHasSub`; Python `sorted` (a stable
sort) by the stable `List.insertionSort`; a raised exception by
`Except.error`.
-/

namespace StationeryAI

/-- A stored timestamp (`Sales.sale_date`), to the granularity the reports
read: `strftime "%Y-%m"` keeps the year and month; the day stands in for the
rest of the timestamp. -/
structure Timestamp where
  year : Nat
  month : Nat
  day : Nat
  deriving DecidableEq

/-- `models.Product` (the `products` table). -/
structure Product where
  id : Int
  name : String
  category : String
  price : ℚ
  stock : Int
  deriving DecidableEq

/-- `models.Sales` (the `sales` table): `total_amount` and `profit` are
nullable columns; `sale_date` has a column default so it is always set. -/
structure SaleEvent where
  product_name : String
  category : String
  quantity_sold : Int
  price : ℚ
  total_amount : Option ℚ
  profit : Option ℚ
  sale_date : Timestamp
  deriving DecidableEq

/-- `SalesRequest` (request body of POST /sales and POST /add-sales). -/
structure SalesRequest where
  product_name : String
  category : String
  quantity_sold : Int
  price : ℚ
  total_amount : ℚ
  profit : ℚ
  deriving DecidableEq

/-- `StockUpdateRequest` (request body of PUT /update-stock). -/
structure StockUpdateRequest where
  product_id : Int
  quantity : Int
  deriving DecidableEq

/-- `RecommendRequest` (request body of POST /recommend). -/
structure RecommendRequest where
  purpose : String
  budget : Int
  deriving DecidableEq

/-- `HTTPException(status_code=..., detail=...)`. -/
structure HTTPException where
  status_code : Nat
  detail : String
  deriving DecidableEq

/-- A handler's response: either the JSON "no data" sentinel object
`\x7b"message": ...\x7d` or the regular payload. -/
inductive ApiResult (α : Type) where
  | msg (m : String)
  | data (d : α)
  deriving DecidableEq

/-! ## Python / SQL primitives -/

/-- Does `hay` start with `needle`?  (Helper for substring containment.) -/
def listStartsWith : List Char → List Char → Bool
  | _, [] => true
  | [], _ :: _ => false
  | a :: as, b :: bs => a == b && listStartsWith as bs

/-- Python `needle in hay` on exploded strings: contiguous substring test. -/
def listHasSub : List Char → List Char → Bool
  | [], needle => needle.isEmpty
  | h :: t, needle => listStartsWith (h :: t) needle || listHasSub t needle

/-- Python `needle in hay` for strings. -/
def strHasSub (hay needle : String) : Bool :=
  listHasSub hay.data needle.data

/-- Python `s.lower()`: lowercase the string character by character. -/
def pyLower (s : String) : String :=
  ⟨s.data.map Char.toLower⟩

/-- SQL `SUM` over a nullable float column: NULL when no non-null value
exists, otherwise the sum of the non-null values. -/
def sqlSumQ (l : List (Option ℚ)) : Option ℚ :=
  match l.filterMap id with
  | [] => none
  | v :: vs => some (v :: vs).sum

/-- SQL `SUM` over a non-nullable integer column: NULL when there are no
rows, otherwise the sum. -/
def sqlSumInt (l : List Int) : Option Int :=
  match l with
  | [] => none
  | v :: vs => some ((v :: vs).sum)

/-- Python `x if x else 0` applied to a nullable integer scalar: both `None`
and `0` are falsy and map to `0`. -/
def pyOrZero (o : Option Int) : Int :=
  match o with
  | none => 0
  | some v => if v == 0 then 0 else v

/-- Python `round(x, 2)` in the rational model: round to 2 decimal places. -/
def round2 (q : ℚ) : ℚ :=
  ((round (q * 100) : ℤ) : ℚ) / 100

/-- Python `round(x, 2)` applied to a nullable SQL sum: `round(None, 2)`
raises `TypeError`. -/
def pyRound2 (o : Option ℚ) : Except String ℚ :=
  match o with
  | none => .error "TypeError: type NoneType doesn't define __round__ method"
  | some q => .ok (round2 q)

/-- Python `int(x)` applied to a nullable SQL integer sum: `int(None)`
raises `TypeError`. -/
def pyIntOfOpt (o : Option Int) : Except String Int :=
  match o with
  | none => .error "TypeError: int() argument must not be NoneType"
  | some v => .ok v

/-! ## POST /sales and POST /add-sales (`add_sales`, main.py:167 and 307) -/

/-- POST /add-sales: stores the request's totals and `datetime.utcnow()`. -/
def add_sales (ledger : List SaleEvent) (req : SalesRequest) (now : Timestamp) :
    List SaleEvent :=
  ledger ++ [{ product_name := req.product_name
               category := req.category
               quantity_sold := req.quantity_sold
               price := req.price
               total_amount := some req.total_amount
               profit := some req.profit
               sale_date := now }]

/-- POST /sales (main.py:167): the handler constructs `Sales` without
`total_amount`, `profit` or `sale_date`, so the two float columns stay NULL
and only the column default fills the timestamp. -/
def add_sales_legacy (ledger : List SaleEvent) (req : SalesRequest)
    (now : Timestamp) : List SaleEvent :=
  ledger ++ [{ product_name := req.product_name
               category := req.category
               quantity_sold := req.quantity_sold
               price := req.price
               total_amount := none
               profit := none
               sale_date := now }]

/-! ## GET /predict-demand (`predict_demand`, main.py:188) -/

/-- One `defaultdict(int)` update `demand[name] += q`; the dict's entries are
kept in key-insertion order, as Python dicts do. -/
def bumpDemand (acc : List (String × Int)) (name : String) (q : Int) :
    List (String × Int) :=
  if acc.any (fun e => e.1 == name) then
    acc.map (fun e => if e.1 == name then (e.1, e.2 + q) else e)
  else
    acc ++ [(name, q)]

/-- The `demand` dict after the aggregation loop: total quantity sold per
product name. -/
def demandTotals (sales : List SaleEvent) : List (String × Int) :=
  sales.foldl (fun acc s => bumpDemand acc s.product_name s.quantity_sold) []

/-- One JSON row of the demand ranking. -/
structure DemandRow where
  product_name : String
  predicted_demand : Int
  deriving DecidableEq

/-- GET /predict-demand: aggregate quantity per product name, Python
`sorted(..., key=lambda x: x[1], reverse=True)` (a stable sort, descending by
summed quantity, modelled by stable insertion sort), and add the constant 5
to each sum. -/
def predict_demand (sales : List SaleEvent) : ApiResult (List DemandRow) :=
  if sales.length == 0 then
    .msg "No sales data found. Add sales first."
  else
    let predicted :=
      List.insertionSort (fun a b : String × Int => b.2 ≤ a.2) (demandTotals sales)
    .data (predicted.map (fun e => { product_name := e.1
                                     predicted_demand := e.2 + 5 }))

/-! ## GET /monthly-report (`monthly_report`, main.py:213) -/

/-- The `strftime "%Y-%m"` grouping key of a sale row, as (year, month);
the zero-padded month string's lexicographic order coincides with the
lexicographic order on these pairs. -/
def monthKey (s : SaleEvent) : Nat × Nat :=
  (s.sale_date.year, s.sale_date.month)

/-- Lexicographic order on grouping keys: the order of the `%Y-%m` strings. -/
def monthLe (a b : Nat × Nat) : Prop :=
  a.1 < b.1 ∨ (a.1 = b.1 ∧ a.2 ≤ b.2)

instance : DecidableRel monthLe := fun a b => by
  unfold monthLe; infer_instance

/-- The distinct GROUP BY keys in output order: SQLite's grouping pass sorts
the rows by the GROUP BY expression, so the report rows come out ascending by
the month string. -/
def monthKeys (sales : List SaleEvent) : List (Nat × Nat) :=
  List.insertionSort monthLe ((sales.map monthKey).dedup)

/-- The rows of one GROUP BY group. -/
def monthEvents (sales : List SaleEvent) (k : Nat × Nat) : List SaleEvent :=
  sales.filter (fun s => monthKey s == k)

/-- One JSON row of the monthly report. -/
structure MonthRow where
  month : Nat × Nat
  total_sales : ℚ
  total_profit : ℚ
  total_items_sold : Int
  deriving DecidableEq

/-- The Python result loop over the grouped report rows, in order: for each
month `round(total_sales, 2)`, `round(total_profit, 2)` and
`int(total_items_sold)`, each of which raises `TypeError` on a NULL sum. -/
def buildRows (sales : List SaleEvent) : List (Nat × Nat) →
    Except String (List MonthRow)
  | [] => .ok []
  | k :: ks =>
    let evs := monthEvents sales k
    match pyRound2 (sqlSumQ (evs.map (·.total_amount))),
          pyRound2 (sqlSumQ (evs.map (·.profit))),
          pyIntOfOpt (sqlSumInt (evs.map (·.quantity_sold))) with
    | .ok ts, .ok tp, .ok ti =>
      match buildRows sales ks with
      | .ok rows => .ok ({ month := k, total_sales := ts, total_profit := tp,
                           total_items_sold := ti } :: rows)
      | .error e => .error e
    | .error e, _, _ => .error e
    | .ok _, .error e, _ => .error e
    | .ok _, .ok _, .error e => .error e

/-- GET /monthly-report: group by month, sentinel when there is no group,
else the rounded per-month sums; an unhandled `TypeError` is `Except.error`. -/
def monthly_report (sales : List SaleEvent) :
    Except String (ApiResult (List MonthRow)) :=
  let keys := monthKeys sales
  if keys.length == 0 then
    .ok (.msg "No sales data available. Reports will appear after purchases.")
  else
    match buildRows sales keys with
    | .ok rows => .ok (.data rows)
    | .error e => .error e

/-! ## GET /stock-report and GET /stock-alert (main.py:236 and 264) -/

/-- The per-product scalar
`db.query(func.sum(Sales.quantity_sold)).filter(Sales.product_name == name).scalar()`
followed by `sold_qty if sold_qty else 0`. -/
def soldQtyFor (sales : List SaleEvent) (name : String) : Int :=
  pyOrZero (sqlSumInt
    ((sales.filter (fun s => s.product_name == name)).map (·.quantity_sold)))

/-- One JSON row of the stock report. -/
structure StockRow where
  product_name : String
  category : String
  initial_stock : Int
  sold_quantity : Int
  remaining_stock : Int
  deriving DecidableEq

/-- GET /stock-report: sentinel when the ledger is empty, else one row per
catalog product with sold and remaining quantities (remaining not clamped). -/
def stock_report (catalog : List Product) (sales : List SaleEvent) :
    ApiResult (List StockRow) :=
  if sales.length == 0 then
    .msg "No sales data available. Stock report will appear after purchases."
  else
    .data (catalog.map (fun p =>
      let sold := soldQtyFor sales p.name
      { product_name := p.name
        category := p.category
        initial_stock := p.stock
        sold_quantity := sold
        remaining_stock := p.stock - sold }))

/-- One JSON row of the stock alert list. -/
structure AlertRow where
  product_name : String
  remaining_stock : Int
  message : String
  deriving DecidableEq

/-- GET /stock-alert: sentinel when the ledger is empty, else the products
whose remaining stock is strictly below 500, with a warning message. -/
def stock_alert (catalog : List Product) (sales : List SaleEvent) :
    ApiResult (List AlertRow) :=
  if sales.length == 0 then
    .msg "No purchases yet. Alerts will appear after sales."
  else
    .data (catalog.filterMap (fun p =>
      let sold := soldQtyFor sales p.name
      let remaining := p.stock - sold
      if remaining < 500 then
        some { product_name := p.name
               remaining_stock := remaining
               message := "⚠️ Low Stock - Order More!" }
      else none))

/-! ## POST /recommend (`recommend_products`, main.py:134) -/

/-- The loop's inclusion test: price within budget, then the lowercased
purpose contained in the lowercased category or name. -/
def recommendMatches (catalog : List Product) (req : RecommendRequest) :
    List Product :=
  catalog.filter (fun p =>
    decide (p.price ≤ (req.budget : ℚ)) &&
      (strHasSub (pyLower p.category) (pyLower req.purpose) ||
       strHasSub (pyLower p.name) (pyLower req.purpose)))

/-- The JSON product summary the endpoint returns. -/
structure ProductSummary where
  id : Int
  name : String
  category : String
  price : ℚ
  stock : Int
  deriving DecidableEq

/-- Projection to the returned summary dict. -/
def summaryOf (p : Product) : ProductSummary :=
  { id := p.id, name := p.name, category := p.category,
    price := p.price, stock := p.stock }

/-- POST /recommend: the budget-and-keyword matches; when none, Python
`sorted(products, key=lambda x: x.price)[:5]` (a stable ascending sort by
price, modelled by stable insertion sort) — the five cheapest products
system-wide, the budget ignored. -/
def recommend_products (catalog : List Product) (req : RecommendRequest) :
    List ProductSummary :=
  let recommendations := recommendMatches catalog req
  let chosen :=
    if recommendations.length == 0 then
      (List.insertionSort (fun a b : Product => a.price ≤ b.price) catalog).take 5
    else recommendations
  chosen.map summaryOf

/-! ## PUT /update-stock (`update_stock`, main.py:290) -/

/-- The ORM mutation `product.stock -= quantity` on the row `.first()`
returned: replace the stock of the first product with the given id. -/
def setStockFirst (catalog : List Product) (pid : Int) (newStock : Int) :
    List Product :=
  match catalog with
  | [] => []
  | p :: ps =>
    if p.id == pid then { p with stock := newStock } :: ps
    else p :: setStockFirst ps pid newStock

/-- The query filter `Product.id == data.product_id`. -/
def idMatch (pid : Int) (p : Product) : Bool :=
  p.id == pid

/-- PUT /update-stock: 404 when the id is absent, 400 when the requested
quantity exceeds the stock, otherwise decrement and return the remaining
stock.  The first component is the catalog after the request. -/
def update_stock (catalog : List Product) (req : StockUpdateRequest) :
    List Product × Except HTTPException Int :=
  match catalog.find? (idMatch req.product_id) with
  | none => (catalog, .error { status_code := 404, detail := "Product not found" })
  | some product =>
    if product.stock < req.quantity then
      (catalog, .error { status_code := 400, detail := "Not enough stock" })
    else
      (setStockFirst catalog req.product_id (product.stock - req.quantity),
       .ok (product.stock - req.quantity))

/-- The stock recorded for a product id (the `.first()` row's stock). -/
def stockOf (catalog : List Product) (pid : Int) : Option Int :=
  (catalog.find? (idMatch pid)).map (·.stock)

/-! ## Derived quantities the specification speaks about -/

/-- The arithmetic sum of quantities sold under a product name. -/
def sumQty (sales : List SaleEvent) (name : String) : Int :=
  ((sales.filter (fun s => s.product_name == name)).map (·.quantity_sold)).sum

/-- The first value stored under a key in an association list (the value a
Python dict lookup would return, given insertion-ordered entries). -/
def findVal : List (String × Int) → String → Option Int
  | [], _ => none
  | e :: t, name => if e.1 == name then some e.2 else findVal t name

/-- The monthly-report row the specification predicts for one month: the
rounded arithmetic sums over the month's events. -/
def rowFor (sales : List SaleEvent) (k : Nat × Nat) : MonthRow :=
  { month := k
    total_sales :=
      round2 (((monthEvents sales k).map (fun s => s.total_amount.getD 0)).sum)
    total_profit :=
      round2 (((monthEvents sales k).map (fun s => s.profit.getD 0)).sum)
    total_items_sold := ((monthEvents sales k).map (fun s => s.quantity_sold)).sum }

instance {ε α : Type} [DecidableEq ε] [DecidableEq α] : DecidableEq (Except ε α) :=
  fun x y =>
    match x, y with
    | .ok a, .ok b =>
      if h : a = b then isTrue (by rw [h])
      else isFalse (by intro hc; cases hc; exact h rfl)
    | .error a, .error b =>
      if h : a = b then isTrue (by rw [h])
      else isFalse (by intro hc; cases hc; exact h rfl)
    | .ok _, .error _ => isFalse (by intro hc; cases hc)
    | .error _, .ok _ => isFalse (by intro hc; cases hc)

/-! ## Concrete fixtures used by witnesses and counterexamples -/

/-- Two quantity-2 units of product "A" sold in 2024-01, with totals. -/
def wSaleA1 : SaleEvent :=
  { product_name := "A", category := "c", quantity_sold := 2, price := 1,
    total_amount := some 10, profit := some 3, sale_date := ⟨2024, 1, 1⟩ }

/-- Seven units of product "B" sold in 2024-02, with totals. -/
def wSaleB : SaleEvent :=
  { product_name := "B", category := "c", quantity_sold := 7, price := 1,
    total_amount := some 20, profit := some 5, sale_date := ⟨2024, 2, 1⟩ }

/-- Three more units of product "A" sold in 2024-01, with totals. -/
def wSaleA2 : SaleEvent :=
  { product_name := "A", category := "c", quantity_sold := 3, price := 1,
    total_amount := some 30, profit := some 7, sale_date := ⟨2024, 1, 2⟩ }

/-- A three-event, two-product, two-month ledger. -/
def wLedger : List SaleEvent := [wSaleA1, wSaleB, wSaleA2]

/-- A sale as stored by POST /sales: NULL `total_amount` and `profit`. -/
def nullProfitSale : SaleEvent :=
  { product_name := "Trimax Pen", category := "Pen", quantity_sold := 2,
    price := 10, total_amount := none, profit := none,
    sale_date := ⟨2024, 3, 1⟩ }

/-- Catalog row from the seed list, with plenty of stock. -/
def wTrimax : Product :=
  { id := 1, name := "Trimax Pen", category := "Pen", price := 10, stock := 600 }

/-- Catalog row from the seed list, over budget in the Recommendation test. -/
def wParker : Product :=
  { id := 2, name := "Parker Pen", category := "Pen", price := 250, stock := 100 }

/-- A two-product catalog. -/
def wCatalog : List Product := [wTrimax, wParker]

/-- The spec's Recommendation example request: budget 100, purpose "pen". -/
def wReqPen : RecommendRequest := { purpose := "pen", budget := 100 }

/-- The spec's empty-match Recommendation request: purpose "zzz", budget 5. -/
def wReqZzz : RecommendRequest := { purpose := "zzz", budget := 5 }

/-- A product sitting exactly on the stock-alert threshold of 500. -/
def wBoundary : Product :=
  { id := 3, name := "Boundary Pad", category := "Paper", price := 1, stock := 500 }

/-! ## Helper lemmas -/

theorem ifZeroElse (s : Int) : (if s == 0 then 0 else s) = s := by
  by_cases h : s = 0 <;> simp [h]

theorem pyOrZero_sqlSumInt (l : List Int) : pyOrZero (sqlSumInt l) = l.sum := by
  cases l with
  | nil => rfl
  | cons v vs => simp only [sqlSumInt, pyOrZero, ifZeroElse]

theorem soldQtyFor_eq (sales : List SaleEvent) (name : String) :
    soldQtyFor sales name = sumQty sales name := by
  simp only [soldQtyFor, sumQty, pyOrZero_sqlSumInt]

/-! ## C5: empty-ledger sentinel -/

/-- C5: with an empty ledger, Demand Ranking, Stock Report and Stock Alert
each return the "no data" message object, not an empty list — for the latter
two independently of the catalog. -/
theorem empty_ledger_sentinels (catalog : List Product) :
    predict_demand [] = .msg "No sales data found. Add sales first." ∧
    stock_report catalog []
      = .msg "No sales data available. Stock report will appear after purchases." ∧
    stock_alert catalog [] = .msg "No purchases yet. Alerts will appear after sales." :=
  ⟨rfl, rfl, rfl⟩

/-! ## C2: an all-null month does not coalesce to zero — it raises -/

/-- C2 (counter-evidence): on a one-event ledger whose only month has NULL
`total_amount` and `profit`, the SQL sums are NULL and `round(None, 2)`
raises `TypeError` — the endpoint fails instead of reporting 0.0. -/
theorem monthly_report_all_null_raises :
    monthly_report [nullProfitSale]
      = .error "TypeError: type NoneType doesn't define __round__ method" := by
  rfl

/-! ## C7: stock report rows -/

/-- C7: with a non-empty ledger, Stock Report lists one row per catalog
product, whose sold quantity is the exact-name-match quantity sum (zero when
no event matches) and whose remaining stock is the unclamped difference. -/
theorem stock_report_rows (catalog : List Product) (sales : List SaleEvent)
    (h : sales ≠ []) :
    ∃ rows, stock_report catalog sales = .data rows ∧
      rows = catalog.map (fun p =>
        { product_name := p.name, category := p.category,
          initial_stock := p.stock, sold_quantity := sumQty sales p.name,
          remaining_stock := p.stock - sumQty sales p.name }) ∧
      ∀ row ∈ rows, row.remaining_stock = row.initial_stock - row.sold_quantity := by
  refine ⟨_, ?_, rfl, ?_⟩
  · simp only [stock_report, List.length_eq_zero, beq_iff_eq, h, if_false,
      soldQtyFor_eq]
  · intro row hrow
    obtain ⟨p, hp, hpe⟩ := List.mem_map.mp hrow
    subst hpe
    rfl

/-- C7 witness: a catalog whose only product has stock 3 against 5 units
sold: the reported remaining stock is the negative number -2. -/
theorem stock_report_rows_witness :
    ([wSaleA1, wSaleA2] ≠ ([] : List SaleEvent)) ∧
    ∃ rows,
      stock_report [{ id := 7, name := "A", category := "c", price := 1, stock := 3 }]
        [wSaleA1, wSaleA2] = .data rows ∧
      rows = [{ product_name := "A", category := "c", initial_stock := 3,
                sold_quantity := 5, remaining_stock := -2 }] := by
  have h : [wSaleA1, wSaleA2] ≠ ([] : List SaleEvent) := by simp
  refine ⟨h, ?_⟩
  obtain ⟨rows, h1, h2, _⟩ :=
    stock_report_rows
      [{ id := 7, name := "A", category := "c", price := 1, stock := 3 }]
      [wSaleA1, wSaleA2] h
  exact ⟨rows, h1, by rw [h2]; rfl⟩

/-! ## C8: update-stock error handling and decrement -/

theorem find?_cons_eq {α : Type} (p : α → Bool) (a : α) (l : List α) :
    List.find? p (a :: l) = if p a then some a else List.find? p l := by
  cases h : p a <;> simp [List.find?, h]

theorem find?_setStockFirst_self (catalog : List Product) (pid ns : Int)
    (p : Product) (h : catalog.find? (idMatch pid) = some p) :
    (setStockFirst catalog pid ns).find? (idMatch pid)
      = some { p with stock := ns } := by
  induction catalog with
  | nil => simp [List.find?] at h
  | cons q qs ih =>
    rw [find?_cons_eq (idMatch pid) q qs] at h
    by_cases hq : idMatch pid q = true
    · rw [if_pos hq] at h
      have hid : (q.id == pid) = true := hq
      have hid2 : idMatch pid ({ q with stock := ns } : Product) = true := hq
      injection h with hpq
      simp only [setStockFirst]
      rw [if_pos hid, find?_cons_eq, if_pos hid2, hpq]
    · rw [if_neg hq] at h
      simp only [setStockFirst]
      rw [if_neg (show ¬(q.id == pid) = true from hq)]
      rw [find?_cons_eq]
      rw [if_neg hq]
      exact ih h

theorem find?_setStockFirst_other (catalog : List Product) (pid ns pid' : Int)
    (hne : pid' ≠ pid) :
    (setStockFirst catalog pid ns).find? (idMatch pid')
      = catalog.find? (idMatch pid') := by
  induction catalog with
  | nil => rfl
  | cons q qs ih =>
    simp only [setStockFirst]
    by_cases hq : (q.id == pid) = true
    · rw [if_pos hq]
      have hqp : q.id = pid := by simpa using hq
      have hL : ¬ idMatch pid' ({ q with stock := ns } : Product) = true := by
        intro hc
        have hc' : q.id = pid' := by simpa [idMatch] using hc
        have hpe : pid = pid' := by rw [← hqp]; exact hc'
        exact hne hpe.symm
      have hR : ¬ idMatch pid' q = true := by
        intro hc
        have hc' : q.id = pid' := by simpa [idMatch] using hc
        have hpe : pid = pid' := by rw [← hqp]; exact hc'
        exact hne hpe.symm
      rw [find?_cons_eq (idMatch pid') ({ q with stock := ns }) qs,
        find?_cons_eq (idMatch pid') q qs, if_neg hL, if_neg hR]
    · rw [if_neg hq]
      rw [find?_cons_eq (idMatch pid') q (setStockFirst qs pid ns),
        find?_cons_eq (idMatch pid') q qs]
      by_cases hq' : idMatch pid' q = true
      · rw [if_pos hq', if_pos hq']
      · rw [if_neg hq', if_neg hq', ih]

/-- C8: update-stock returns 404 "Product not found" on an absent id and 400
"Not enough stock" when the request exceeds the current stock, leaving the
catalog unchanged in both cases; otherwise it decrements the product's stock
by exactly the requested quantity, returns the new remaining value, and
leaves every other id's lookup unchanged. -/
theorem update_stock_spec (catalog : List Product) (req : StockUpdateRequest) :
    (catalog.find? (idMatch req.product_id) = none →
      update_stock catalog req
        = (catalog, .error { status_code := 404, detail := "Product not found" })) ∧
    (∀ prod, catalog.find? (idMatch req.product_id) = some prod →
      (prod.stock < req.quantity →
        update_stock catalog req
          = (catalog, .error { status_code := 400, detail := "Not enough stock" })) ∧
      (req.quantity ≤ prod.stock →
        (update_stock catalog req).2 = .ok (prod.stock - req.quantity) ∧
        stockOf (update_stock catalog req).1 req.product_id
          = some (prod.stock - req.quantity) ∧
        ∀ pid, pid ≠ req.product_id →
          (update_stock catalog req).1.find? (idMatch pid)
            = catalog.find? (idMatch pid))) := by
  constructor
  · intro h
    simp only [update_stock, h]
  · intro prod h
    constructor
    · intro hlt
      simp only [update_stock, h, hlt, if_true]
    · intro hge
      have hnlt : ¬prod.stock < req.quantity := not_lt.mpr hge
      refine ⟨?_, ?_, ?_⟩
      · simp only [update_stock, h, hnlt, if_false]
      · simp only [update_stock, h, hnlt, if_false, stockOf,
          find?_setStockFirst_self catalog req.product_id
            (prod.stock - req.quantity) prod h]
        rfl
      · intro pid hpid
        simp only [update_stock, h, hnlt, if_false]
        exact find?_setStockFirst_other catalog req.product_id
          (prod.stock - req.quantity) pid hpid

/-- C8 witness: on the two-product catalog, decrementing product 1 by 50
succeeds with remaining 550 and leaves product 2's row unchanged; a request
for an absent id 9 is a 404 and a request of 150 against stock 100 is a 400,
both leaving the catalog as it was. -/
theorem update_stock_spec_witness :
    ((update_stock wCatalog { product_id := 1, quantity := 50 }).2 = .ok 550 ∧
     stockOf (update_stock wCatalog { product_id := 1, quantity := 50 }).1 1
       = some 550) ∧
    update_stock wCatalog { product_id := 9, quantity := 1 }
      = (wCatalog, .error { status_code := 404, detail := "Product not found" }) ∧
    update_stock wCatalog { product_id := 2, quantity := 150 }
      = (wCatalog, .error { status_code := 400, detail := "Not enough stock" }) := by
  refine ⟨?_, ?_, ?_⟩
  · have h := ((update_stock_spec wCatalog
      { product_id := 1, quantity := 50 }).2 wTrimax (by rfl)).2 (by decide)
    exact ⟨h.1, h.2.1⟩
  · exact (update_stock_spec wCatalog { product_id := 9, quantity := 1 }).1 (by rfl)
  · exact ((update_stock_spec wCatalog
      { product_id := 2, quantity := 150 }).2 wParker (by rfl)).1 (by decide)

/-! ## C3: stock-alert membership and threshold -/

/-- C3: with a non-empty ledger, Stock Alert is exactly the catalog filtered
to products whose remaining stock (stock minus exact-name quantity sum) is
strictly below 500; under distinct catalog names a product's name appears iff
its remaining stock is below 500, and no listed alert has remaining stock 500
or more. -/
theorem stock_alert_spec (catalog : List Product) (sales : List SaleEvent)
    (h : sales ≠ []) (hnd : (catalog.map (fun p => p.name)).Nodup) :
    ∃ alerts, stock_alert catalog sales = .data alerts ∧
      alerts = catalog.filterMap (fun p =>
        if p.stock - sumQty sales p.name < 500 then
          some { product_name := p.name,
                 remaining_stock := p.stock - sumQty sales p.name,
                 message := "⚠️ Low Stock - Order More!" }
        else none) ∧
      (∀ p ∈ catalog,
        (p.name ∈ alerts.map (fun a => a.product_name) ↔
          p.stock - sumQty sales p.name < 500)) ∧
      ∀ a ∈ alerts, a.remaining_stock < 500 := by
  have hguard : ¬((sales.length == 0) = true) := by
    simp only [beq_iff_eq, List.length_eq_zero]
    exact h
  refine ⟨_, ?_, rfl, ?_, ?_⟩
  · simp only [stock_alert]
    rw [if_neg hguard]
    simp only [soldQtyFor_eq]
  · intro p hp
    constructor
    · intro hmem
      obtain ⟨a, ha, hname⟩ := List.mem_map.mp hmem
      obtain ⟨q, hq, hqa⟩ := List.mem_filterMap.mp ha
      by_cases hc : q.stock - sumQty sales q.name < 500
      · rw [if_pos hc] at hqa
        injection hqa with hrow
        have hqname : q.name = p.name := by rw [← hname, ← hrow]
        have hqp : q = p := List.inj_on_of_nodup_map hnd hq hp hqname
        rwa [hqp] at hc
      · rw [if_neg hc] at hqa
        cases hqa
    · intro hc
      exact List.mem_map.mpr
        ⟨{ product_name := p.name, remaining_stock := p.stock - sumQty sales p.name,
           message := "⚠️ Low Stock - Order More!" },
         List.mem_filterMap.mpr ⟨p, hp, by rw [if_pos hc]⟩, rfl⟩
  · intro a ha
    obtain ⟨q, hq, hqa⟩ := List.mem_filterMap.mp ha
    by_cases hc : q.stock - sumQty sales q.name < 500
    · rw [if_pos hc] at hqa
      injection hqa with hrow
      rw [← hrow]
      exact hc
    · rw [if_neg hc] at hqa
      cases hqa

/-- C3 witness: against a ledger of product "A" sales, the catalog rows with
stock 600 and 500 (remaining 600 and exactly 500) do not alert, while the row
with stock 100 does. -/
theorem stock_alert_spec_witness :
    (([wSaleA1] : List SaleEvent) ≠ []) ∧
    (([wTrimax, wParker, wBoundary].map (fun p => p.name)).Nodup) ∧
    ∃ alerts,
      stock_alert [wTrimax, wParker, wBoundary] [wSaleA1] = .data alerts ∧
      alerts = [{ product_name := "Parker Pen", remaining_stock := 100,
                  message := "⚠️ Low Stock - Order More!" }] := by
  have h1 : ([wSaleA1] : List SaleEvent) ≠ [] := by simp
  have h2 : (([wTrimax, wParker, wBoundary].map (fun p => p.name)).Nodup) := by
    decide
  refine ⟨h1, h2, ?_⟩
  obtain ⟨alerts, ha, he, _⟩ :=
    stock_alert_spec [wTrimax, wParker, wBoundary] [wSaleA1] h1 h2
  exact ⟨alerts, ha, by rw [he]; rfl⟩

/-! ## C10: POST /sales stores NULL totals -/

/-- C10: the POST /sales handler ignores the request's `total_amount` and
`profit`: the stored row carries NULL in both columns (while POST /add-sales
stores the supplied values), and such NULL cells are skipped by the monthly
rollup's SQL sums. -/
theorem sales_route_stores_null_totals (ledger : List SaleEvent)
    (req : SalesRequest) (now : Timestamp) :
    ∃ e, add_sales_legacy ledger req now = ledger ++ [e] ∧
      e.total_amount = none ∧ e.profit = none ∧
      e.product_name = req.product_name ∧ e.category = req.category ∧
      e.quantity_sold = req.quantity_sold ∧ e.price = req.price ∧
      (∀ l, sqlSumQ (e.total_amount :: l) = sqlSumQ l ∧
            sqlSumQ (e.profit :: l) = sqlSumQ l) ∧
      ∃ e2, add_sales ledger req now = ledger ++ [e2] ∧
        e2.total_amount = some req.total_amount ∧ e2.profit = some req.profit := by
  refine ⟨_, rfl, rfl, rfl, rfl, rfl, rfl, rfl, ?_, _, rfl, rfl, rfl⟩
  intro l
  constructor <;> simp [sqlSumQ, List.filterMap_cons]

/-! ## C4: recommendation matches and cheapest-five fallback -/

/-- C4: a product is in the recommendation match set iff its price is within
budget and the lowercased purpose occurs in its lowercased category or name;
a non-empty match set is returned as-is, and an empty one falls back to the
five cheapest catalog products (no budget filter), sorted ascending by
price. -/
theorem recommend_spec (catalog : List Product) (req : RecommendRequest) :
    (∀ p ∈ catalog, (p ∈ recommendMatches catalog req ↔
       (p.price ≤ (req.budget : ℚ) ∧
        (strHasSub (pyLower p.category) (pyLower req.purpose) = true ∨
         strHasSub (pyLower p.name) (pyLower req.purpose) = true)))) ∧
    (recommendMatches catalog req ≠ [] →
       recommend_products catalog req
         = (recommendMatches catalog req).map summaryOf) ∧
    (recommendMatches catalog req = [] →
       ∃ cheapest, recommend_products catalog req = cheapest.map summaryOf ∧
         cheapest = (List.insertionSort
             (fun a b : Product => a.price ≤ b.price) catalog).take 5 ∧
         cheapest.Pairwise (fun a b => a.price ≤ b.price) ∧
         cheapest.length = min 5 catalog.length ∧
         (∀ q ∈ cheapest, ∀ r ∈ catalog, r ∉ cheapest → q.price ≤ r.price)) := by
  haveI htot : IsTotal Product (fun a b => a.price ≤ b.price) :=
    ⟨fun a b => le_total a.price b.price⟩
  haveI htrans : IsTrans Product (fun a b => a.price ≤ b.price) :=
    ⟨fun a b c hab hbc => le_trans hab hbc⟩
  refine ⟨?_, ?_, ?_⟩
  · intro p hp
    unfold recommendMatches
    rw [List.mem_filter]
    simp only [Bool.and_eq_true, Bool.or_eq_true, decide_eq_true_eq]
    constructor
    · intro hx
      exact hx.2
    · intro hx
      exact ⟨hp, hx⟩
  · intro hne
    have hcond : ((recommendMatches catalog req).length == 0) = false := by
      simp only [beq_eq_false_iff_ne, ne_eq, List.length_eq_zero]
      exact hne
    simp only [recommend_products, hcond, Bool.false_eq_true, if_false]
  · intro hempty
    set sortedAll :=
      List.insertionSort (fun a b : Product => a.price ≤ b.price) catalog with hs
    have hsorted : sortedAll.Pairwise (fun a b => a.price ≤ b.price) :=
      List.sorted_insertionSort (fun a b : Product => a.price ≤ b.price) catalog
    have hsplit : sortedAll = sortedAll.take 5 ++ sortedAll.drop 5 :=
      (List.take_append_drop 5 sortedAll).symm
    have hperm : sortedAll.Perm catalog :=
      List.perm_insertionSort (fun a b : Product => a.price ≤ b.price) catalog
    refine ⟨sortedAll.take 5, ?_, rfl, ?_, ?_, ?_⟩
    · have hcond : ((recommendMatches catalog req).length == 0) = true := by
        simp [hempty]
      simp only [recommend_products, hcond, if_true]
    · exact hsorted.sublist (List.take_sublist 5 sortedAll)
    · rw [List.length_take, hperm.length_eq]
    · intro q hq r hr hrout
      have hr' : r ∈ sortedAll := hperm.mem_iff.mpr hr
      rw [hsplit] at hr'
      have hrdrop : r ∈ sortedAll.drop 5 := by
        rcases List.mem_append.mp hr' with hcase | hcase
        · exact absurd hcase hrout
        · exact hcase
      have hpw := hsorted
      rw [hsplit] at hpw
      exact (List.pairwise_append.mp hpw).2.2 q hq r hrdrop

/-- C4 witness: the spec's example — budget 100, purpose "pen", catalog
[Trimax Pen (10), Parker Pen (250)]: Trimax matches, Parker does not; with
purpose "zzz" and budget 5 the match set is empty and the fallback is the
whole two-product catalog sorted ascending by price, budget ignored. -/
theorem recommend_spec_witness :
    wTrimax ∈ recommendMatches wCatalog wReqPen ∧
    wParker ∉ recommendMatches wCatalog wReqPen ∧
    recommendMatches wCatalog wReqZzz = [] ∧
    ∃ cheapest, recommend_products wCatalog wReqZzz = cheapest.map summaryOf ∧
      cheapest = (List.insertionSort
          (fun a b : Product => a.price ≤ b.price) wCatalog).take 5 ∧
      cheapest.Pairwise (fun a b => a.price ≤ b.price) ∧
      cheapest.length = min 5 wCatalog.length ∧
      (∀ q ∈ cheapest, ∀ r ∈ wCatalog, r ∉ cheapest → q.price ≤ r.price) := by
  have hempty : recommendMatches wCatalog wReqZzz = [] := by decide
  refine ⟨?_, ?_, hempty, (recommend_spec wCatalog wReqZzz).2.2 hempty⟩
  · exact ((recommend_spec wCatalog wReqPen).1 wTrimax (by decide)).mpr (by decide)
  · intro hmem
    have hc := ((recommend_spec wCatalog wReqPen).1 wParker (by decide)).mp hmem
    have : ¬((wParker.price ≤ ((wReqPen.budget : Int) : ℚ)) ∧
        (strHasSub (pyLower wParker.category) (pyLower wReqPen.purpose) = true ∨
         strHasSub (pyLower wParker.name) (pyLower wReqPen.purpose) = true)) := by
      decide
    exact this hc

/-! ## C1: demand ranking -/

theorem sumQty_cons (s : SaleEvent) (t : List SaleEvent) (name : String) :
    sumQty (s :: t) name =
      (if (s.product_name == name) = true then s.quantity_sold else 0)
        + sumQty t name := by
  unfold sumQty
  by_cases hn : (s.product_name == name) = true
  · rw [List.filter_cons, if_pos hn, List.map_cons, List.sum_cons, if_pos hn]
  · rw [List.filter_cons, if_neg hn, if_neg hn, zero_add]

theorem findVal_map_bump (acc : List (String × Int)) (name name' : String)
    (q : Int) :
    findVal (acc.map (fun e => if e.1 == name then (e.1, e.2 + q) else e)) name' =
      if (name == name') = true then (findVal acc name').map (fun v => v + q)
      else findVal acc name' := by
  induction acc with
  | nil => by_cases hq : (name == name') = true <;> simp [findVal, hq]
  | cons e t ih =>
    obtain ⟨k, v⟩ := e
    simp only [beq_iff_eq] at ih ⊢
    by_cases hk : k = name
    · by_cases hq : name = name'
      · simp [findVal, beq_iff_eq, hk, hq, ih]
      · simp [findVal, beq_iff_eq, hk, hq, ih]
    · by_cases hq : name = name'
      · by_cases hk' : k = name'
        · exact absurd (hk'.trans hq.symm) hk
        · subst hq
          simp [findVal, beq_iff_eq, hk, hk', ih]
      · simp [findVal, beq_iff_eq, hk, hq, ih]

theorem findVal_append (acc₁ acc₂ : List (String × Int)) (name : String) :
    findVal (acc₁ ++ acc₂) name =
      match findVal acc₁ name with
      | some v => some v
      | none => findVal acc₂ name := by
  induction acc₁ with
  | nil => simp [findVal]
  | cons e t ih =>
    obtain ⟨k, v⟩ := e
    by_cases hk : (k == name) = true <;> simp [findVal, hk, ih]

theorem findVal_eq_none_iff (acc : List (String × Int)) (name : String) :
    findVal acc name = none ↔ (acc.any (fun e => e.1 == name)) = false := by
  induction acc with
  | nil => simp [findVal]
  | cons e t ih =>
    obtain ⟨k, v⟩ := e
    by_cases hk : (k == name) = true <;> simp [findVal, hk, ih]

theorem findVal_bumpDemand (acc : List (String × Int)) (name name' : String)
    (q : Int) :
    findVal (bumpDemand acc name q) name' =
      if (name == name') = true then some ((findVal acc name').getD 0 + q)
      else findVal acc name' := by
  unfold bumpDemand
  by_cases hany : (acc.any (fun e => e.1 == name)) = true
  · rw [if_pos hany, findVal_map_bump]
    by_cases hq : (name == name') = true
    · rw [if_pos hq, if_pos hq]
      have hne : ¬ findVal acc name' = none := by
        intro hn
        rw [findVal_eq_none_iff] at hn
        rw [beq_iff_eq] at hq
        rw [← hq] at hn
        rw [hn] at hany
        cases hany
      cases hfv : findVal acc name' with
      | none => exact absurd hfv hne
      | some v => simp
    · rw [if_neg hq, if_neg hq]
  · rw [if_neg hany, findVal_append]
    have hnone : findVal acc name = none := by
      rw [findVal_eq_none_iff, Bool.eq_false_iff]
      exact hany
    by_cases hq : (name == name') = true
    · rw [if_pos hq]
      have hnone' : findVal acc name' = none := by
        rw [beq_iff_eq] at hq
        rw [← hq]
        exact hnone
      rw [hnone']
      simp [findVal, hq, hnone']
    · rw [if_neg hq]
      cases hfv : findVal acc name' with
      | some v => simp
      | none => simp [findVal, hq]

theorem findVal_demandFold (l : List SaleEvent) (acc : List (String × Int))
    (name : String) :
    findVal (l.foldl (fun a s => bumpDemand a s.product_name s.quantity_sold) acc)
        name =
      match findVal acc name with
      | some v => some (v + sumQty l name)
      | none =>
        if (l.any (fun s => s.product_name == name)) = true
        then some (sumQty l name) else none := by
  induction l generalizing acc with
  | nil => cases hfv : findVal acc name <;> simp [sumQty, hfv]
  | cons s t ih =>
    rw [List.foldl_cons, ih, findVal_bumpDemand, sumQty_cons, List.any_cons]
    by_cases hn : (s.product_name == name) = true
    · rw [if_pos hn, if_pos hn]
      cases hfv : findVal acc name with
      | some v => simp [hfv, add_assoc]
      | none => simp [hfv, zero_add, hn]
    · rw [if_neg hn, if_neg hn, zero_add]
      cases hfv : findVal acc name <;> simp [hfv, hn]

theorem findVal_demandTotals (sales : List SaleEvent) (name : String) :
    findVal (demandTotals sales) name =
      if (sales.any (fun s => s.product_name == name)) = true
      then some (sumQty sales name) else none := by
  unfold demandTotals
  rw [findVal_demandFold]
  rfl

theorem nodupKeys_bumpDemand (acc : List (String × Int)) (name : String)
    (q : Int) (h : (acc.map Prod.fst).Nodup) :
    ((bumpDemand acc name q).map Prod.fst).Nodup := by
  unfold bumpDemand
  by_cases hany : (acc.any (fun e => e.1 == name)) = true
  · rw [if_pos hany]
    have hkeys : (acc.map (fun e => if e.1 == name then (e.1, e.2 + q) else e)).map
        Prod.fst = acc.map Prod.fst := by
      rw [List.map_map]
      apply List.map_congr_left
      intro e he
      by_cases hc : (e.1 == name) = true <;> simp [hc, Function.comp]
    rw [hkeys]
    exact h
  · rw [if_neg hany, List.map_append]
    have hnotin : name ∉ acc.map Prod.fst := by
      intro hmem
      obtain ⟨e, he, hee⟩ := List.mem_map.mp hmem
      exact hany (List.any_eq_true.mpr ⟨e, he, by simp [hee]⟩)
    simp [List.nodup_append, h, hnotin]

theorem nodupKeys_demandFold (l : List SaleEvent) (acc : List (String × Int))
    (h : (acc.map Prod.fst).Nodup) :
    (((l.foldl (fun a s => bumpDemand a s.product_name s.quantity_sold) acc)).map
      Prod.fst).Nodup := by
  induction l generalizing acc with
  | nil => exact h
  | cons s t ih =>
    rw [List.foldl_cons]
    exact ih _ (nodupKeys_bumpDemand _ _ _ h)

theorem nodupKeys_demandTotals (sales : List SaleEvent) :
    ((demandTotals sales).map Prod.fst).Nodup :=
  nodupKeys_demandFold sales [] (by simp)

theorem mem_iff_findVal (acc : List (String × Int))
    (h : (acc.map Prod.fst).Nodup) (name : String) (v : Int) :
    (name, v) ∈ acc ↔ findVal acc name = some v := by
  induction acc with
  | nil => simp [findVal]
  | cons e t ih =>
    obtain ⟨k, w⟩ := e
    rw [List.map_cons, List.nodup_cons] at h
    by_cases hk : (k == name) = true
    · rw [beq_iff_eq] at hk
      subst hk
      constructor
      · intro hmem
        rcases List.mem_cons.mp hmem with hh | hh
        · have hv : v = w := by
            have := congrArg Prod.snd hh
            simpa using this
          rw [hv]
          simp [findVal]
        · exact absurd (List.mem_map.mpr ⟨(k, v), hh, rfl⟩) h.1
      · intro hfv
        simp only [findVal, beq_self_eq_true, if_true] at hfv
        injection hfv with hwv
        exact List.mem_cons.mpr (Or.inl (by rw [hwv]))
    · constructor
      · intro hmem
        rcases List.mem_cons.mp hmem with hh | hh
        · exfalso
          have hnk : name = k := congrArg Prod.fst hh
          rw [hnk] at hk
          simp at hk
        · have hmt := (ih h.2).mp hh
          simp [findVal, hk, hmt]
      · intro hfv
        simp only [findVal, hk, if_false] at hfv
        exact List.mem_cons.mpr (Or.inr ((ih h.2).mpr hfv))

/-- C1: with a non-empty ledger, the demand ranking has, for every product
name occurring in the ledger, a row whose predicted demand is the quantity
sum for that name plus 5; every listed row is of that form, and the rows are
sorted non-increasing by predicted demand. -/
theorem predict_demand_spec (sales : List SaleEvent) (h : sales ≠ []) :
    ∃ rows, predict_demand sales = .data rows ∧
      (∀ row ∈ rows, (∃ s ∈ sales, s.product_name = row.product_name) ∧
         row.predicted_demand = sumQty sales row.product_name + 5) ∧
      (∀ name, (∃ s ∈ sales, s.product_name = name) →
         ∃ row ∈ rows, row.product_name = name) ∧
      rows.Pairwise (fun a b => b.predicted_demand ≤ a.predicted_demand) := by
  have hguard : ¬((sales.length == 0) = true) := by
    simp only [beq_iff_eq, List.length_eq_zero]
    exact h
  set sorted :=
    List.insertionSort (fun a b : String × Int => b.2 ≤ a.2) (demandTotals sales)
    with hs
  refine ⟨sorted.map (fun e => { product_name := e.1, predicted_demand := e.2 + 5 }),
    ?_, ?_, ?_, ?_⟩
  · simp only [predict_demand]
    rw [if_neg hguard]
  · intro row hrow
    obtain ⟨e, he, hre⟩ := List.mem_map.mp hrow
    have hmem : e ∈ demandTotals sales := by
      rw [hs] at he
      exact (List.perm_insertionSort _ _).subset he
    have hfv : findVal (demandTotals sales) e.1 = some e.2 :=
      (mem_iff_findVal _ (nodupKeys_demandTotals sales) e.1 e.2).mp hmem
    rw [findVal_demandTotals] at hfv
    by_cases hany : (sales.any (fun s => s.product_name == e.1)) = true
    · rw [if_pos hany] at hfv
      injection hfv with hv
      constructor
      · obtain ⟨s, hsmem, hsn⟩ := List.any_eq_true.mp hany
        refine ⟨s, hsmem, ?_⟩
        rw [← hre]
        exact beq_iff_eq.mp hsn
      · rw [← hre]
        show e.2 + 5 = sumQty sales e.1 + 5
        rw [hv]
    · rw [if_neg hany] at hfv
      exact Option.noConfusion hfv
  · intro name hex
    obtain ⟨s, hsmem, hsn⟩ := hex
    have hany : (sales.any (fun s => s.product_name == name)) = true :=
      List.any_eq_true.mpr ⟨s, hsmem, by simp [hsn]⟩
    have hfv : findVal (demandTotals sales) name = some (sumQty sales name) := by
      rw [findVal_demandTotals, if_pos hany]
    have hmem : (name, sumQty sales name) ∈ demandTotals sales :=
      (mem_iff_findVal _ (nodupKeys_demandTotals sales) _ _).mpr hfv
    have hmem2 : (name, sumQty sales name) ∈ sorted := by
      rw [hs]
      exact ((List.perm_insertionSort _ _).mem_iff).mpr hmem
    exact ⟨{ product_name := name, predicted_demand := sumQty sales name + 5 },
      List.mem_map.mpr ⟨(name, sumQty sales name), hmem2, rfl⟩, rfl⟩
  · haveI : IsTotal (String × Int) (fun a b => b.2 ≤ a.2) :=
      ⟨fun a b => le_total b.2 a.2⟩
    haveI : IsTrans (String × Int) (fun a b => b.2 ≤ a.2) :=
      ⟨fun a b c hab hbc => le_trans hbc hab⟩
    have hsorted : sorted.Pairwise (fun a b : String × Int => b.2 ≤ a.2) := by
      rw [hs]
      exact List.sorted_insertionSort _ _
    refine List.Pairwise.map _ ?_ hsorted
    intro a b hab
    exact add_le_add_right hab 5

/-- C1 witness: on the three-event ledger (A: 2+3 units, B: 7 units), the
demand ranking exists, contains rows for both names with sums 5 and 7 plus
the constant 5, and is sorted non-increasing. -/
theorem predict_demand_spec_witness :
    (wLedger ≠ []) ∧
    ∃ rows, predict_demand wLedger = .data rows ∧
      (∀ row ∈ rows, (∃ s ∈ wLedger, s.product_name = row.product_name) ∧
         row.predicted_demand = sumQty wLedger row.product_name + 5) ∧
      (∀ name, (∃ s ∈ wLedger, s.product_name = name) →
         ∃ row ∈ rows, row.product_name = name) ∧
      rows.Pairwise (fun a b => b.predicted_demand ≤ a.predicted_demand) := by
  have h1 : wLedger ≠ [] := by simp [wLedger]
  exact ⟨h1, predict_demand_spec wLedger h1⟩

/-! ## C6: monthly rollup -/

theorem filterMap_id_all_some (l : List (Option ℚ))
    (hall : ∀ o ∈ l, o ≠ none) :
    l.filterMap id = l.map (fun o => o.getD 0) := by
  induction l with
  | nil => rfl
  | cons o t ih =>
    have ho := hall o (List.mem_cons_self o t)
    cases o with
    | none => exact absurd rfl ho
    | some v =>
      simp only [List.filterMap_cons, List.map_cons, id]
      rw [ih (fun o ho' => hall o (List.mem_cons_of_mem _ ho'))]
      rfl

theorem sqlSumQ_all_some (l : List (Option ℚ)) (hne : l ≠ [])
    (hall : ∀ o ∈ l, o ≠ none) :
    sqlSumQ l = some ((l.map (fun o => o.getD 0)).sum) := by
  unfold sqlSumQ
  rw [filterMap_id_all_some l hall]
  cases hl : l.map (fun o => o.getD 0) with
  | nil => exact absurd (List.map_eq_nil_iff.mp hl) hne
  | cons v vs => rfl

theorem sqlSumInt_nonempty (l : List Int) (hne : l ≠ []) :
    sqlSumInt l = some l.sum := by
  cases l with
  | nil => exact absurd rfl hne
  | cons v vs => rfl

theorem monthEvents_ne_nil_of_mem (sales : List SaleEvent) (k : Nat × Nat)
    (hk : k ∈ monthKeys sales) : monthEvents sales k ≠ [] := by
  have h1 : k ∈ (sales.map monthKey).dedup := by
    unfold monthKeys at hk
    exact (List.perm_insertionSort _ _).subset hk
  obtain ⟨s, hs, hsk⟩ := List.mem_map.mp (List.mem_dedup.mp h1)
  intro hnil
  have hmem : s ∈ monthEvents sales k := by
    unfold monthEvents
    exact List.mem_filter.mpr ⟨hs, by simp [hsk]⟩
  rw [hnil] at hmem
  cases hmem

theorem monthKeys_nonempty (sales : List SaleEvent) (h : sales ≠ []) :
    monthKeys sales ≠ [] := by
  cases sales with
  | nil => exact absurd rfl h
  | cons s t =>
    apply List.ne_nil_of_mem (a := monthKey s)
    unfold monthKeys
    exact (List.perm_insertionSort _ _).mem_iff.mpr
      (List.mem_dedup.mpr (List.mem_map.mpr ⟨s, List.mem_cons_self s t, rfl⟩))

theorem buildRows_ok (sales : List SaleEvent)
    (hall : ∀ s ∈ sales, s.total_amount ≠ none ∧ s.profit ≠ none) :
    ∀ ks : List (Nat × Nat), (∀ k ∈ ks, monthEvents sales k ≠ []) →
      buildRows sales ks = .ok (ks.map (rowFor sales)) := by
  intro ks
  induction ks with
  | nil => intro _; rfl
  | cons k kt ih =>
    intro hk
    have hek : monthEvents sales k ≠ [] := hk k (List.mem_cons_self k kt)
    have hsub : ∀ s ∈ monthEvents sales k, s ∈ sales := by
      intro s hsm
      unfold monthEvents at hsm
      exact (List.mem_filter.mp hsm).1
    have hta : pyRound2 (sqlSumQ ((monthEvents sales k).map (fun s => s.total_amount)))
        = .ok (round2 (((monthEvents sales k).map (fun s => s.total_amount.getD 0)).sum)) := by
      rw [sqlSumQ_all_some _ (fun hmap => hek (List.map_eq_nil_iff.mp hmap))
        (by
          intro o ho
          obtain ⟨s, hsm, rfl⟩ := List.mem_map.mp ho
          exact (hall s (hsub s hsm)).1)]
      rw [List.map_map]
      rfl
    have htp : pyRound2 (sqlSumQ ((monthEvents sales k).map (fun s => s.profit)))
        = .ok (round2 (((monthEvents sales k).map (fun s => s.profit.getD 0)).sum)) := by
      rw [sqlSumQ_all_some _ (fun hmap => hek (List.map_eq_nil_iff.mp hmap))
        (by
          intro o ho
          obtain ⟨s, hsm, rfl⟩ := List.mem_map.mp ho
          exact (hall s (hsub s hsm)).2)]
      rw [List.map_map]
      rfl
    have hti : pyIntOfOpt (sqlSumInt ((monthEvents sales k).map (fun s => s.quantity_sold)))
        = .ok (((monthEvents sales k).map (fun s => s.quantity_sold)).sum) := by
      rw [sqlSumInt_nonempty _ (fun hmap => hek (List.map_eq_nil_iff.mp hmap))]
      rfl
    simp only [buildRows]
    rw [hta, htp, hti, ih (fun k' hk' => hk k' (List.mem_cons_of_mem _ hk'))]
    rfl

/-- C6: with a non-empty ledger of events whose `total_amount` and `profit`
are set, the monthly report has one row per distinct (year, month) of the
stored timestamps, listed in ascending month order without duplicates, and
each row's totals are the arithmetic sums of `total_amount`, `profit` and
`quantity_sold` over that month's events, the monetary ones rounded to two
decimal places. -/
theorem monthly_report_spec (sales : List SaleEvent) (h : sales ≠ [])
    (hall : ∀ s ∈ sales, s.total_amount ≠ none ∧ s.profit ≠ none) :
    ∃ rows, monthly_report sales = .ok (.data rows) ∧
      (∀ k, k ∈ rows.map (fun r => r.month) ↔ k ∈ sales.map monthKey) ∧
      (rows.map (fun r => r.month)).Pairwise monthLe ∧
      (rows.map (fun r => r.month)).Nodup ∧
      ∀ row ∈ rows,
        row.total_sales
          = round2 (((monthEvents sales row.month).map
              (fun s => s.total_amount.getD 0)).sum) ∧
        row.total_profit
          = round2 (((monthEvents sales row.month).map
              (fun s => s.profit.getD 0)).sum) ∧
        row.total_items_sold
          = ((monthEvents sales row.month).map (fun s => s.quantity_sold)).sum := by
  have hkeys : monthKeys sales ≠ [] := monthKeys_nonempty sales h
  have hguard : ¬(((monthKeys sales).length == 0) = true) := by
    simp only [beq_iff_eq, List.length_eq_zero]
    exact hkeys
  have hbuild := buildRows_ok sales hall (monthKeys sales)
    (fun k hk => monthEvents_ne_nil_of_mem sales k hk)
  have hmap : ((monthKeys sales).map (rowFor sales)).map (fun r => r.month)
      = monthKeys sales := by
    rw [List.map_map]
    exact List.map_id _
  refine ⟨(monthKeys sales).map (rowFor sales), ?_, ?_, ?_, ?_, ?_⟩
  · simp only [monthly_report]
    rw [if_neg hguard, hbuild]
  · intro k
    rw [hmap]
    unfold monthKeys
    exact ((List.perm_insertionSort _ _).mem_iff).trans List.mem_dedup
  · rw [hmap]
    haveI : IsTotal (Nat × Nat) monthLe := ⟨by intro a b; unfold monthLe; omega⟩
    haveI : IsTrans (Nat × Nat) monthLe := ⟨by intro a b c; unfold monthLe; omega⟩
    exact List.sorted_insertionSort monthLe _
  · rw [hmap]
    unfold monthKeys
    exact ((List.perm_insertionSort _ _).nodup_iff).mpr (List.nodup_dedup _)
  · intro row hrow
    obtain ⟨k, hk, hke⟩ := List.mem_map.mp hrow
    rw [← hke]
    exact ⟨rfl, rfl, rfl⟩

/-- C6 witness: the three-event, two-month ledger yields the report with
months (2024, 1) and (2024, 2) in ascending order and the arithmetic sums. -/
theorem monthly_report_spec_witness :
    (wLedger ≠ []) ∧
    (∀ s ∈ wLedger, s.total_amount ≠ none ∧ s.profit ≠ none) ∧
    ∃ rows, monthly_report wLedger = .ok (.data rows) ∧
      (∀ k, k ∈ rows.map (fun r => r.month) ↔ k ∈ wLedger.map monthKey) ∧
      (rows.map (fun r => r.month)).Pairwise monthLe ∧
      (rows.map (fun r => r.month)).Nodup ∧
      ∀ row ∈ rows,
        row.total_sales
          = round2 (((monthEvents wLedger row.month).map
              (fun s => s.total_amount.getD 0)).sum) ∧
        row.total_profit
          = round2 (((monthEvents wLedger row.month).map
              (fun s => s.profit.getD 0)).sum) ∧
        row.total_items_sold
          = ((monthEvents wLedger row.month).map (fun s => s.quantity_sold)).sum := by
  have h1 : wLedger ≠ [] := by simp [wLedger]
  have h2 : ∀ s ∈ wLedger, s.total_amount ≠ none ∧ s.profit ≠ none := by decide
  exact ⟨h1, h2, monthly_report_spec wLedger h1 h2⟩

end StationeryAI
